import Mathlib

/-!
Verification of the mqtt-aprs gateway against its specification.

The development shallowly embeds the translation core of the gateway:
the degree-to-DMS coordinate encoder `deg_to_dms`, the Owntracks-to-APRS
conversion performed by the MQTT message handler `process_message`, the
APRS-to-Owntracks conversion `aprs_to_owntracks` and its caller
`handle_packet`, the outbound send path `send_packet`, and the MQTT
shutdown sequence `mqtt_stop`.

Numeric values are idealised as exact rationals: Python floats become `ℚ`,
`int(x)` becomes truncation toward zero, and `round(x, 2)` becomes exact
round-half-to-even at two decimal places.  Strings are Lean `String`s.
Exception control flow is made explicit: a handler that catches every
exception and drops the message is embedded as a function into `Option`,
where `none` covers both the explicit drop paths and the caught-exception
paths.  Network effects are embedded as traces of abstract operations,
driven by an oracle that chooses whether each underlying transport call
succeeds.
-/

attribute [local semireducible] Rat.add Rat.mul Rat.sub Rat.inv Rat.ofScientific

set_option maxRecDepth 10000

namespace MqttAprs

/-- Python `int(x)` applied to a real value: truncation toward zero. -/
def pytrunc (q : ℚ) : ℤ := if 0 ≤ q then ⌊q⌋ else ⌈q⌉

/-- Python `round(x)` to an integer: round half to even (banker's rounding). -/
def roundHalfEven (q : ℚ) : ℤ :=
  let f := ⌊q⌋
  let r := q - f
  if r < 1/2 then f
  else if 1/2 < r then f + 1
  else if f % 2 = 0 then f else f + 1

/-- Python `round(x, 2)`: round to two decimal places, half to even. -/
def round2 (q : ℚ) : ℚ := (roundHalfEven (q * 100) : ℚ) / 100

/-- Python `str.zfill(w)`: left-pad with `'0'` up to width `w`, keeping a
leading sign character in front of the padding. -/
def zfill (w : Nat) (s : String) : String :=
  let cs := s.data
  if w ≤ cs.length then s
  else match cs with
    | '-' :: rest => ⟨'-' :: (List.replicate (w - cs.length) '0' ++ rest)⟩
    | '+' :: rest => ⟨'+' :: (List.replicate (w - cs.length) '0' ++ rest)⟩
    | _ => ⟨List.replicate (w - cs.length) '0' ++ cs⟩

/-- Python `str.strip(c)` for a one-character argument: remove every
occurrence of `c` from both ends of the string. -/
def stripChar (c : Char) (s : String) : String :=
  ⟨((s.data.dropWhile (fun x => x = c)).reverse.dropWhile (fun x => x = c)).reverse⟩

/-- `MQTTClient._deg_to_dms` from src/mqtt_client.py (the identical helper
also appears in src/mqtt-aprs.py).  `long_flag` is true for longitude. -/
def deg_to_dms (deg : ℚ) (long_flag : Bool) : String :=
  let d : ℤ := pytrunc deg
  let md : ℚ := round2 (|deg - (d : ℚ)| * 60)
  let m : ℤ := pytrunc md
  let hm : ℤ := pytrunc ((md - (m : ℚ)) * 100)
  if long_flag then
    let suffix := if 0 < d then "E" else "W"
    zfill 3 (stripChar '-' (toString d)) ++ zfill 2 (toString m) ++ "." ++
      zfill 2 (toString hm) ++ suffix
  else
    let suffix := if 0 < d then "N" else "S"
    zfill 2 (stripChar '-' (toString d)) ++ zfill 2 (toString m) ++ "." ++
      zfill 2 (toString hm) ++ suffix

/-- Numeric value of a decimal digit character, if it is one. -/
def digitVal (c : Char) : Option ℕ :=
  if 48 ≤ c.toNat ∧ c.toNat ≤ 57 then some (c.toNat - 48) else none

/-- Accumulator loop for `parseDigits`. -/
def parseDigitsAux : List Char → ℕ → Option ℕ
  | [], acc => some acc
  | c :: cs, acc =>
    match digitVal c with
    | some d => parseDigitsAux cs (acc * 10 + d)
    | none => none

/-- Parse a nonempty string of decimal digits as a natural number. -/
def parseDigits (cs : List Char) : Option ℕ :=
  if cs.isEmpty then none else parseDigitsAux cs 0

/-- Decoder for the APRS DMS position text, on the character list.  It
follows the spec's reading discipline: the leading 2 (latitude) or 3
(longitude) characters are the degree digits, the next two the whole
minutes, after the dot two hundredth-of-a-minute digits, and the final
hemisphere letter gives the sign; the value is degrees + minutes/60.
The gateway source contains no decoder (only the encoder is used), so
this definition exists purely to state round-trip properties. -/
def decodeDMSList (isLong : Bool) (cs : List Char) : Option ℚ :=
  let k := if isLong then 3 else 2
  if cs.length = k + 6 then
    match parseDigits (cs.take k), parseDigits ((cs.drop k).take 2),
        parseDigits ((cs.drop (k+3)).take 2) with
    | some dg, some mn, some hh =>
      if (cs.drop (k+2)).take 1 = ['.'] then
        let mag : ℚ := (dg : ℚ) + ((mn : ℚ) + (hh : ℚ)/100)/60
        match (cs.drop (k+5)).take 1 with
        | [h] =>
          if isLong then
            if h = 'E' then some mag else if h = 'W' then some (-mag) else none
          else
            if h = 'N' then some mag else if h = 'S' then some (-mag) else none
        | _ => none
      else none
    | _, _, _ => none
  else none

/-- Decoder for the APRS DMS position string; see `decodeDMSList`. -/
def decodeDMS (isLong : Bool) (s : String) : Option ℚ :=
  decodeDMSList isLong s.data

/-- JSON values as produced by `json.loads`. -/
inductive Json where
  | null
  | bool (b : Bool)
  | num (q : ℚ)
  | str (s : String)
  | arr (xs : List Json)
  | obj (kvs : List (String × Json))

/-- `dict.get(key)` on a parsed JSON object (`json.loads` yields unique keys). -/
def jsonLookup : List (String × Json) → String → Option Json
  | [], _ => none
  | (k2, v) :: rest, k => if k2 = k then some v else jsonLookup rest k

/-- Python `==` between a JSON value and a string literal: true exactly when
the value is that string (a non-string value never equals a string). -/
def jsonEqStr : Json → String → Bool
  | Json.str s, t => s = t
  | _, _ => false

/-- Parse an unsigned decimal literal (digits with an optional fractional
part) as a rational. -/
def parseDecimal (cs : List Char) : Option ℚ :=
  let ip := cs.takeWhile (fun c => c ≠ '.')
  let rest := cs.dropWhile (fun c => c ≠ '.')
  match rest with
  | [] => (parseDigits ip).map (fun n => (n : ℚ))
  | '.' :: fp =>
    match parseDigits ip, parseDigits fp with
    | some n, some f => some ((n : ℚ) + (f : ℚ) / (10 : ℚ) ^ fp.length)
    | _, _ => none
  | _ => none

/-- Python `float(s)` on a string, modelled for plain decimal literals with
an optional sign (exponent and infinity spellings are not exercised by any
claim). -/
def pyFloatOfStr (s : String) : Option ℚ :=
  match s.data with
  | '-' :: rest => (parseDecimal rest).map (fun q => -q)
  | '+' :: rest => parseDecimal rest
  | cs => parseDecimal cs

/-- Python `float(x)` on a JSON value: numbers pass through, booleans
become 0 or 1, decimal strings are parsed, anything else raises. -/
def pyFloat : Json → Option ℚ
  | Json.num q => some q
  | Json.bool b => some (if b then 1 else 0)
  | Json.str s => pyFloatOfStr s
  | _ => none

/-- The configuration fields consulted by the two message handlers. -/
structure GatewayConfig where
  aprs_callsign : String
  aprs_ssid : String
  aprs_tabl : String
  aprs_symb : String
  aprs_in_topic_prefix : String

/-- The test `data.get('_type') == 'location'` on a parsed object. -/
def isLocationType (kvs : List (String × Json)) : Bool :=
  match jsonLookup kvs "_type" with
  | some v => jsonEqStr v "location"
  | none => false

/-- `float(data[k])`: `none` when the key is missing (`KeyError`) or the
value cannot be converted (both exceptions are caught by the caller). -/
def floatField (kvs : List (String × Json)) (k : String) : Option ℚ :=
  match jsonLookup kvs k with
  | some v => pyFloat v
  | none => none

/-- `MQTTClient._process_message` from src/mqtt_client.py.  The argument is
the result of `json.loads` on the payload (`none` when parsing raised).
The result is the packet string handed to the APRS send callback, or
`none` when the message is dropped: the non-location branch, a payload
that is not a JSON object (`data.get` raises), a missing or non-numeric
`lat`/`lon` (`KeyError` or `float` failure) — every exception is caught
and logged by the surrounding handler. -/
def process_message (cfg : GatewayConfig) (payload : Option Json) : Option String :=
  match payload with
  | none => none
  | some (Json.obj kvs) =>
    if isLocationType kvs then
      match floatField kvs "lat", floatField kvs "lon" with
      | some latq, some lonq =>
        some (cfg.aprs_callsign ++ "-" ++ cfg.aprs_ssid ++ ">APRS,TCPIP*:" ++
          "=" ++ deg_to_dms latq false ++ cfg.aprs_tabl ++ deg_to_dms lonq true ++
          cfg.aprs_symb ++ " mqtt-aprs\n")
      | _, _ => none
    else none
  | some _ => none

/-- A field value inside a parsed APRS packet, as handed over by the
`aprslib` parser: a number or a string. -/
inductive PyVal where
  | num (q : ℚ)
  | str (s : String)
deriving DecidableEq

/-- Python `int(s)` on a string: an optional sign followed by digits
(the forms not exercised by the claims, such as underscores, are left
out). -/
def pyIntOfStr (s : String) : Option ℤ :=
  match s.data with
  | '-' :: rest => (parseDigits rest).map (fun n => -(n : ℤ))
  | '+' :: rest => (parseDigits rest).map (fun n => (n : ℤ))
  | cs => (parseDigits cs).map (fun n => (n : ℤ))

/-- Python `int(x)`: truncate a number toward zero, parse a string,
anything else raises. -/
def pyInt : PyVal → Option ℤ
  | PyVal.num q => some (pytrunc q)
  | PyVal.str s => pyIntOfStr s

/-- A parsed APRS packet, restricted to the fields the gateway reads.
`sender` is the packet's `from` field.  Absent fields are `none`. -/
structure AprsPacket where
  sender : Option String
  latitude : Option PyVal
  longitude : Option PyVal
  timestamp : Option PyVal
  altitude : Option PyVal
  speed : Option PyVal
  course : Option PyVal
deriving DecidableEq

/-- The Owntracks dictionary built by `_aprs_to_owntracks`.  `lat` and
`lon` are copied verbatim from the packet (hence possibly absent =
JSON null); `tst`, `alt`, `vel`, `cog` went through `int()`. -/
structure OwntracksPayload where
  lat : Option PyVal
  lon : Option PyVal
  tst : ℤ
  tid : String
  alt : Option ℤ
  vel : Option ℤ
  cog : Option ℤ
deriving DecidableEq

/-- `int()` applied under the optional-field pattern of the source:
an absent field stays absent, a present one must convert or the whole
conversion raises. -/
def pyIntOpt : Option PyVal → Option (Option ℤ)
  | none => some none
  | some v => (pyInt v).map some

/-- `APRSClient._aprs_to_owntracks` from src/aprs_client.py (duplicated as
`aprs_to_owntracks` in src/mqtt-aprs.py).  `now` is the value of
`time.time()` used when the packet has no timestamp.  `none` is the
`except`-branch outcome: the conversion raised and the caller gets
`None`. -/
def aprs_to_owntracks (now : ℚ) (p : AprsPacket) : Option OwntracksPayload :=
  match pyInt (p.timestamp.getD (PyVal.num now)) with
  | none => none
  | some tstv =>
    match pyIntOpt p.altitude with
    | none => none
    | some altv =>
      match pyIntOpt p.speed with
      | none => none
      | some velv =>
        match pyIntOpt p.course with
        | none => none
        | some cogv =>
          some
            { lat := p.latitude
              lon := p.longitude
              tst := tstv
              tid := (p.sender.getD "").take 2
              alt := altv
              vel := velv
              cog := cogv }

/-- `APRSClient._handle_packet` from src/aprs_client.py: only packets with
both coordinate fields present are considered, the converted record is
published on `{prefix}/{sender}` (Python renders a missing sender as
`"None"` inside the f-string).  The result is the topic/payload handed to
the MQTT publish callback, or `none` when the packet is ignored. -/
def handle_packet (cfg : GatewayConfig) (now : ℚ) (p : AprsPacket) :
    Option (String × OwntracksPayload) :=
  if p.latitude.isSome && p.longitude.isSome then
    match aprs_to_owntracks now p with
    | some ot =>
      some (cfg.aprs_in_topic_prefix ++ "/" ++
        (match p.sender with | some s => s | none => "None"), ot)
    | none => none
  else none

/-- The transport operations `send_packet` can perform on the `aprslib`
connection object.  `connect` includes the APRS-IS login sequence, which
`aprslib` performs inside `IS.connect`. -/
inductive NetOp where
  | connect
  | sendall
  | close
deriving DecidableEq

/-- Oracle fixing the outcome of each underlying transport call. -/
structure NetOracle where
  connectOk : Bool
  sendOk : Bool
  closeOk : Bool

/-- The `try/finally` body of the outbound-only branch of
`APRSClient.send_packet`: connect, transmit, and a `finally` block that
always attempts `close` and swallows its own exceptions.  Returns the
trace of attempted operations and whether an exception escapes the
block. -/
def tempConnSend (o : NetOracle) : List NetOp × Bool :=
  let tryPart : List NetOp × Bool :=
    if o.connectOk then
      if o.sendOk then ([NetOp.connect, NetOp.sendall], false)
      else ([NetOp.connect, NetOp.sendall], true)
    else ([NetOp.connect], true)
  (tryPart.1 ++ [NetOp.close], tryPart.2)

/-- `APRSClient.send_packet` from src/aprs_client.py.  With the listener
enabled it transmits on the shared connection inside its own
`try/except`; otherwise it runs `tempConnSend`.  The outer
`except Exception` catches everything, so the returned exception flag is
what the caller of `send_packet` observes. -/
def send_packet (inEnabled : Bool) (o : NetOracle) : List NetOp × Bool :=
  if inEnabled then
    ([NetOp.sendall], false)
  else
    let r := tempConnSend o
    (r.1, false)

/-- The MQTT client operations performed by `MQTTClient.stop`. -/
inductive MqttOp where
  | publish (topic : String) (payload : String) (retain : Bool)
  | loop_stop
  | disconnect
deriving DecidableEq

/-- The per-instance presence topic `clients/<fqdn>/mqtt-aprs/state`. -/
def presence_topic (fqdn : String) : String :=
  "clients/" ++ fqdn ++ "/mqtt-aprs/state"

/-- `MQTTClient.stop` from src/mqtt_client.py, as the ordered trace of
client calls it performs. -/
def mqtt_stop (fqdn : String) : List MqttOp :=
  [MqttOp.publish (presence_topic fqdn) "0" true, MqttOp.loop_stop, MqttOp.disconnect]

/-! ## Basic lemmas about the embedded code -/

/-- Reduction of `process_message` on an object payload. -/
theorem process_message_obj (cfg : GatewayConfig) (kvs : List (String × Json)) :
    process_message cfg (some (Json.obj kvs)) =
      if isLocationType kvs then
        match floatField kvs "lat", floatField kvs "lon" with
        | some latq, some lonq =>
          some (cfg.aprs_callsign ++ "-" ++ cfg.aprs_ssid ++ ">APRS,TCPIP*:" ++
            "=" ++ deg_to_dms latq false ++ cfg.aprs_tabl ++ deg_to_dms lonq true ++
            cfg.aprs_symb ++ " mqtt-aprs\n")
        | _, _ => none
      else none := rfl

/-- Unfolding of `deg_to_dms` in the latitude case. -/
theorem deg_to_dms_false_def (v : ℚ) :
    deg_to_dms v false =
      zfill 2 (stripChar '-' (toString (pytrunc v))) ++
        zfill 2 (toString (pytrunc (round2 (|v - (pytrunc v : ℚ)| * 60)))) ++ "." ++
        zfill 2 (toString (pytrunc ((round2 (|v - (pytrunc v : ℚ)| * 60) -
          (pytrunc (round2 (|v - (pytrunc v : ℚ)| * 60)) : ℚ)) * 100))) ++
        (if 0 < pytrunc v then "N" else "S") := rfl

/-- Unfolding of `deg_to_dms` in the longitude case. -/
theorem deg_to_dms_true_def (v : ℚ) :
    deg_to_dms v true =
      zfill 3 (stripChar '-' (toString (pytrunc v))) ++
        zfill 2 (toString (pytrunc (round2 (|v - (pytrunc v : ℚ)| * 60)))) ++ "." ++
        zfill 2 (toString (pytrunc ((round2 (|v - (pytrunc v : ℚ)| * 60) -
          (pytrunc (round2 (|v - (pytrunc v : ℚ)| * 60)) : ℚ)) * 100))) ++
        (if 0 < pytrunc v then "E" else "W") := rfl

/-- Appending a one-character string fixes the last character. -/
theorem data_getLast_append (x y : String) (c : Char) (h : y.data = [c]) :
    (x ++ y).data.getLast? = some c := by
  rw [String.data_append, h]
  exact List.getLast?_concat _

theorem pytrunc_intCast (n : ℤ) : pytrunc (n : ℚ) = n := by
  unfold pytrunc
  split <;> simp

theorem pytrunc_of_nonneg {q : ℚ} (h : 0 ≤ q) : pytrunc q = ⌊q⌋ := if_pos h

theorem pytrunc_of_nonpos {q : ℚ} (h : q ≤ 0) : pytrunc q = ⌈q⌉ := by
  unfold pytrunc
  split
  · have h0 : q = 0 := le_antisymm h (by assumption)
    subst h0; simp
  · rfl

/-- `roundHalfEven` lands on the floor or on the floor plus one. -/
theorem roundHalfEven_mem (q : ℚ) :
    roundHalfEven q = ⌊q⌋ ∨ roundHalfEven q = ⌊q⌋ + 1 := by
  simp only [roundHalfEven]
  split_ifs <;> simp

/-- `roundHalfEven` is within a half of its argument. -/
theorem roundHalfEven_sub_le (q : ℚ) : |((roundHalfEven q : ℤ) : ℚ) - q| ≤ 1/2 := by
  have hf : ((⌊q⌋ : ℤ) : ℚ) ≤ q := Int.floor_le q
  have hf1 : q < ((⌊q⌋ : ℤ) : ℚ) + 1 := Int.lt_floor_add_one q
  simp only [roundHalfEven]
  split_ifs with h1 h2 h3 <;> rw [abs_le] <;> push_cast <;> constructor <;> linarith

/-- Two-digit zero-padded rendering of a natural below 100 parses back. -/
theorem zfill2_repr_parse : ∀ n : ℕ, n < 100 →
    (zfill 2 (Nat.repr n)).data.length = 2 ∧
    parseDigits (zfill 2 (Nat.repr n)).data = some n := by decide

/-- Three-digit zero-padded rendering of a natural below 1000 parses back. -/
theorem zfill3_repr_parse : ∀ n : ℕ, n < 1000 →
    (zfill 3 (Nat.repr n)).data.length = 3 ∧
    parseDigits (zfill 3 (Nat.repr n)).data = some n := by decide

/-- `str(d).strip('-')` renders the magnitude of a small integer. -/
theorem strip_toString_int : ∀ n : ℕ, n < 1000 →
    stripChar '-' (toString ((n : ℕ) : ℤ)) = Nat.repr n ∧
    stripChar '-' (toString (-((n : ℕ) : ℤ))) = Nat.repr n := by decide

theorem toString_int_ofNat (n : ℕ) : toString ((n : ℕ) : ℤ) = Nat.repr n := rfl

/-- How the encoder's minutes arithmetic decomposes: for a minutes value
`x` in `[0, 60)`, the truncated whole minutes and hundredths are naturals
below 100, and together they represent `x/60` of a degree to within
`1/12000` of a degree (half of the hundredth-of-a-minute resolution). -/
theorem minutes_decomp (x : ℚ) (hx0 : 0 ≤ x) (hx1 : x < 60) :
    ∃ mN hN : ℕ, mN < 100 ∧ hN < 100 ∧
      pytrunc (round2 x) = ((mN : ℕ) : ℤ) ∧
      pytrunc ((round2 x - (((mN : ℕ) : ℤ) : ℚ)) * 100) = ((hN : ℕ) : ℤ) ∧
      |((mN : ℚ) + (hN : ℚ)/100)/60 - x/60| ≤ 1/12000 := by
  set k : ℤ := roundHalfEven (x * 100) with hk
  have hx100 : (0 : ℚ) ≤ x * 100 := by positivity
  have hfl0 : 0 ≤ ⌊x * 100⌋ := Int.floor_nonneg.mpr hx100
  have hk0 : 0 ≤ k := by
    rcases roundHalfEven_mem (x * 100) with h | h <;> rw [hk, h] <;> omega
  have hk6 : k ≤ 6000 := by
    have hlt : x * 100 < ((6000 : ℤ) : ℚ) := by push_cast; linarith
    have hfl : ⌊x * 100⌋ < 6000 := Int.floor_lt.mpr hlt
    rcases roundHalfEven_mem (x * 100) with h | h <;> rw [hk, h] <;> omega
  have hkacc : |((k : ℤ) : ℚ) - x * 100| ≤ 1/2 := roundHalfEven_sub_le (x * 100)
  set kN : ℕ := k.toNat with hkN
  have hkcast : ((kN : ℕ) : ℤ) = k := Int.toNat_of_nonneg hk0
  have hkN6 : kN ≤ 6000 := by omega
  have hr2 : round2 x = ((k : ℤ) : ℚ) / 100 := rfl
  have hq : ((k : ℤ) : ℚ) = ((kN : ℕ) : ℚ) := by exact_mod_cast hkcast.symm
  have hdecomp : 100 * (kN / 100) + kN % 100 = kN := Nat.div_add_mod kN 100
  have hmod : kN % 100 < 100 := Nat.mod_lt _ (by norm_num)
  have hpos : (0 : ℚ) ≤ ((kN : ℕ) : ℚ) / 100 := by positivity
  have hfloor : pytrunc (round2 x) = ((kN / 100 : ℕ) : ℤ) := by
    rw [hr2, hq, pytrunc_of_nonneg hpos, Int.floor_eq_iff]
    constructor
    · rw [le_div_iff (by norm_num : (0:ℚ) < 100)]
      push_cast
      have hle : (kN / 100) * 100 ≤ kN := by omega
      exact_mod_cast hle
    · rw [div_lt_iff (by norm_num : (0:ℚ) < 100)]
      push_cast
      have hlt : kN < (kN / 100 + 1) * 100 := by omega
      exact_mod_cast hlt
  refine ⟨kN / 100, kN % 100, ?_, hmod, hfloor, ?_, ?_⟩
  · have : kN / 100 ≤ 60 := by omega
    omega
  · have hdq : 100 * ((kN / 100 : ℕ) : ℚ) + ((kN % 100 : ℕ) : ℚ) = ((kN : ℕ) : ℚ) := by
      exact_mod_cast hdecomp
    have c1 : (((kN / 100 : ℕ) : ℤ) : ℚ) = ((kN / 100 : ℕ) : ℚ) := Int.cast_natCast _
    have c2 : (((kN % 100 : ℕ) : ℤ) : ℚ) = ((kN % 100 : ℕ) : ℚ) := Int.cast_natCast _
    have hring : (((kN : ℕ) : ℚ) / 100 - ((kN / 100 : ℕ) : ℚ)) * 100 =
        ((kN : ℕ) : ℚ) - 100 * ((kN / 100 : ℕ) : ℚ) := by ring
    have hexpr : (round2 x - (((kN / 100 : ℕ) : ℤ) : ℚ)) * 100 =
        (((kN % 100 : ℕ) : ℤ) : ℚ) := by
      rw [hr2, hq, c1, c2, hring]
      linarith
    rw [hexpr, pytrunc_intCast]
  · have hdq : 100 * ((kN / 100 : ℕ) : ℚ) + ((kN % 100 : ℕ) : ℚ) = ((kN : ℕ) : ℚ) := by
      exact_mod_cast hdecomp
    have hM : ((kN / 100 : ℕ) : ℚ) + ((kN % 100 : ℕ) : ℚ) / 100 = ((kN : ℕ) : ℚ) / 100 := by
      rw [eq_div_iff (by norm_num : (100:ℚ) ≠ 0)]
      ring_nf
      linarith
    have heq : (((kN / 100 : ℕ) : ℚ) + ((kN % 100 : ℕ) : ℚ) / 100) / 60 - x / 60 =
        (((kN : ℕ) : ℚ) - x * 100) / 6000 := by
      rw [hM]; ring
    rw [heq, abs_div]
    have habs6 : |(6000 : ℚ)| = 6000 := by norm_num
    rw [habs6]
    rw [div_le_iff (by norm_num : (0:ℚ) < 6000)]
    have hkacc2 : |((kN : ℕ) : ℚ) - x * 100| ≤ 1/2 := by rw [← hq]; exact hkacc
    rw [show (1:ℚ)/12000 * 6000 = 1/2 by norm_num]
    exact hkacc2

/-- Reading back a well-formed 8-character latitude DMS text. -/
theorem decodeDMSList_lat (A B C : List Char) (dA mN hN : ℕ) (hemi : Char)
    (hA : A.length = 2) (hB : B.length = 2) (hC : C.length = 2)
    (pA : parseDigits A = some dA) (pB : parseDigits B = some mN)
    (pC : parseDigits C = some hN) :
    decodeDMSList false (A ++ (B ++ ('.' :: (C ++ [hemi])))) =
      (if hemi = 'N' then some ((dA : ℚ) + ((mN : ℚ) + (hN : ℚ)/100)/60)
       else if hemi = 'S' then some (-((dA : ℚ) + ((mN : ℚ) + (hN : ℚ)/100)/60))
       else none) := by
  obtain ⟨a1, a2, rfl⟩ := List.length_eq_two.mp hA
  obtain ⟨b1, b2, rfl⟩ := List.length_eq_two.mp hB
  obtain ⟨c1, c2, rfl⟩ := List.length_eq_two.mp hC
  simp [decodeDMSList, pA, pB, pC]

/-- Reading back a well-formed 9-character longitude DMS text. -/
theorem decodeDMSList_lon (A B C : List Char) (dA mN hN : ℕ) (hemi : Char)
    (hA : A.length = 3) (hB : B.length = 2) (hC : C.length = 2)
    (pA : parseDigits A = some dA) (pB : parseDigits B = some mN)
    (pC : parseDigits C = some hN) :
    decodeDMSList true (A ++ (B ++ ('.' :: (C ++ [hemi])))) =
      (if hemi = 'E' then some ((dA : ℚ) + ((mN : ℚ) + (hN : ℚ)/100)/60)
       else if hemi = 'W' then some (-((dA : ℚ) + ((mN : ℚ) + (hN : ℚ)/100)/60))
       else none) := by
  obtain ⟨a1, a2, a3, rfl⟩ := List.length_eq_three.mp hA
  obtain ⟨b1, b2, rfl⟩ := List.length_eq_two.mp hB
  obtain ⟨c1, c2, rfl⟩ := List.length_eq_two.mp hC
  simp [decodeDMSList, pA, pB, pC]

/-- Character-list normal form of an assembled DMS string. -/
theorem dms_data_shape (A B C S : String) (c : Char) (hS : S.data = [c]) :
    (A ++ B ++ "." ++ C ++ S).data =
      A.data ++ (B.data ++ ('.' :: (C.data ++ [c]))) := by
  simp [String.data_append, hS, show ("." : String).data = ['.'] from rfl]

/-- Round trip for nonpositive latitudes. -/
theorem encode_lat_nonpos (v : ℚ) (hlo : -(89999/1000) ≤ v) (hhi : v ≤ 0) :
    ∃ w : ℚ, decodeDMS false (deg_to_dms v false) = some w ∧ |w - v| ≤ 1/6000 := by
  have hd : pytrunc v = ⌈v⌉ := pytrunc_of_nonpos hhi
  have hdle : ⌈v⌉ ≤ 0 := Int.ceil_le.mpr (by exact_mod_cast hhi)
  have hdgt : (-90 : ℤ) < ⌈v⌉ := by
    rw [Int.lt_ceil]
    push_cast
    linarith
  set dA : ℕ := (⌈v⌉).natAbs with hdAdef
  have hcast : ((dA : ℕ) : ℤ) = -⌈v⌉ := Int.ofNat_natAbs_of_nonpos hdle
  have hceilz : ⌈v⌉ = -((dA : ℕ) : ℤ) := by omega
  have hdAlt : dA < 100 := by omega
  have hceilq : ((⌈v⌉ : ℤ) : ℚ) = -((dA : ℕ) : ℚ) := by exact_mod_cast hceilz
  have hvle : v ≤ ((⌈v⌉ : ℤ) : ℚ) := Int.le_ceil v
  have habs : |v - ((⌈v⌉ : ℤ) : ℚ)| = ((⌈v⌉ : ℤ) : ℚ) - v := by
    rw [abs_sub_comm]
    exact abs_of_nonneg (by linarith)
  have hclt : ((⌈v⌉ : ℤ) : ℚ) < v + 1 := Int.ceil_lt_add_one v
  have hx0 : 0 ≤ |v - ((⌈v⌉ : ℤ) : ℚ)| * 60 := by positivity
  have hx1 : |v - ((⌈v⌉ : ℤ) : ℚ)| * 60 < 60 := by
    rw [habs]
    nlinarith
  obtain ⟨mN, hN, hmN, hhN, hm_eq, hhm_eq, hacc⟩ :=
    minutes_decomp (|v - ((⌈v⌉ : ℤ) : ℚ)| * 60) hx0 hx1
  have hsuffix : (if 0 < ⌈v⌉ then "N" else "S") = "S" := if_neg (by omega)
  have hstrip : stripChar '-' (toString ⌈v⌉) = Nat.repr dA := by
    rw [hceilz]
    exact (strip_toString_int dA (by omega)).2
  have hstr : deg_to_dms v false =
      zfill 2 (Nat.repr dA) ++ zfill 2 (Nat.repr mN) ++ "." ++
        zfill 2 (Nat.repr hN) ++ "S" := by
    rw [deg_to_dms_false_def, hd, hm_eq, hhm_eq, hstrip, hsuffix,
      toString_int_ofNat, toString_int_ofNat]
  refine ⟨-((dA : ℚ) + ((mN : ℚ) + (hN : ℚ)/100)/60), ?_, ?_⟩
  · show decodeDMSList false (deg_to_dms v false).data = _
    rw [hstr, dms_data_shape _ _ _ _ 'S' rfl,
      decodeDMSList_lat _ _ _ dA mN hN 'S'
        (zfill2_repr_parse dA hdAlt).1 (zfill2_repr_parse mN hmN).1
        (zfill2_repr_parse hN hhN).1
        (zfill2_repr_parse dA hdAlt).2 (zfill2_repr_parse mN hmN).2
        (zfill2_repr_parse hN hhN).2]
    rw [if_neg (by decide), if_pos rfl]
  · have hx60 : (|v - ((⌈v⌉ : ℤ) : ℚ)| * 60) / 60 = ((⌈v⌉ : ℤ) : ℚ) - v := by
      rw [habs]
      field_simp
    have key : -((dA : ℚ) + ((mN : ℚ) + (hN : ℚ)/100)/60) - v =
        (|v - ((⌈v⌉ : ℤ) : ℚ)| * 60) / 60 - ((mN : ℚ) + (hN : ℚ)/100)/60 := by
      rw [hx60, hceilq]
      ring
    rw [key, abs_sub_comm]
    exact le_trans hacc (by norm_num)

/-- Round trip for latitudes of at least one degree. -/
theorem encode_lat_pos (v : ℚ) (hlo : 1 ≤ v) (hhi : v ≤ 89999/1000) :
    ∃ w : ℚ, decodeDMS false (deg_to_dms v false) = some w ∧ |w - v| ≤ 1/6000 := by
  have h0 : (0 : ℚ) ≤ v := by linarith
  have hd : pytrunc v = ⌊v⌋ := pytrunc_of_nonneg h0
  have hd1 : 1 ≤ ⌊v⌋ := Int.le_floor.mpr (by exact_mod_cast hlo)
  have hd90 : ⌊v⌋ < 90 := Int.floor_lt.mpr (by push_cast; linarith)
  set dA : ℕ := (⌊v⌋).toNat with hdAdef
  have hcast : ((dA : ℕ) : ℤ) = ⌊v⌋ := Int.toNat_of_nonneg (by omega)
  have hdAlt : dA < 100 := by omega
  have hfq : ((⌊v⌋ : ℤ) : ℚ) = ((dA : ℕ) : ℚ) := by exact_mod_cast hcast.symm
  have hfle : ((⌊v⌋ : ℤ) : ℚ) ≤ v := Int.floor_le v
  have hflt : v < ((⌊v⌋ : ℤ) : ℚ) + 1 := Int.lt_floor_add_one v
  have habs : |v - ((⌊v⌋ : ℤ) : ℚ)| = v - ((⌊v⌋ : ℤ) : ℚ) := abs_of_nonneg (by linarith)
  have hx0 : 0 ≤ |v - ((⌊v⌋ : ℤ) : ℚ)| * 60 := by positivity
  have hx1 : |v - ((⌊v⌋ : ℤ) : ℚ)| * 60 < 60 := by
    rw [habs]
    nlinarith
  obtain ⟨mN, hN, hmN, hhN, hm_eq, hhm_eq, hacc⟩ :=
    minutes_decomp (|v - ((⌊v⌋ : ℤ) : ℚ)| * 60) hx0 hx1
  have hsuffix : (if 0 < ⌊v⌋ then "N" else "S") = "N" := if_pos (by omega)
  have hstrip : stripChar '-' (toString ⌊v⌋) = Nat.repr dA := by
    rw [← hcast]
    exact (strip_toString_int dA (by omega)).1
  have hstr : deg_to_dms v false =
      zfill 2 (Nat.repr dA) ++ zfill 2 (Nat.repr mN) ++ "." ++
        zfill 2 (Nat.repr hN) ++ "N" := by
    rw [deg_to_dms_false_def, hd, hm_eq, hhm_eq, hstrip, hsuffix,
      toString_int_ofNat, toString_int_ofNat]
  refine ⟨(dA : ℚ) + ((mN : ℚ) + (hN : ℚ)/100)/60, ?_, ?_⟩
  · show decodeDMSList false (deg_to_dms v false).data = _
    rw [hstr, dms_data_shape _ _ _ _ 'N' rfl,
      decodeDMSList_lat _ _ _ dA mN hN 'N'
        (zfill2_repr_parse dA hdAlt).1 (zfill2_repr_parse mN hmN).1
        (zfill2_repr_parse hN hhN).1
        (zfill2_repr_parse dA hdAlt).2 (zfill2_repr_parse mN hmN).2
        (zfill2_repr_parse hN hhN).2]
    rw [if_pos rfl]
  · have hx60 : (|v - ((⌊v⌋ : ℤ) : ℚ)| * 60) / 60 = v - ((⌊v⌋ : ℤ) : ℚ) := by
      rw [habs]
      field_simp
    have key : ((dA : ℚ) + ((mN : ℚ) + (hN : ℚ)/100)/60) - v =
        ((mN : ℚ) + (hN : ℚ)/100)/60 - (|v - ((⌊v⌋ : ℤ) : ℚ)| * 60) / 60 := by
      rw [hx60, ← hfq]
      ring
    rw [key]
    exact le_trans hacc (by norm_num)

/-- Round trip for nonpositive longitudes. -/
theorem encode_lon_nonpos (v : ℚ) (hlo : -(179999/1000) ≤ v) (hhi : v ≤ 0) :
    ∃ w : ℚ, decodeDMS true (deg_to_dms v true) = some w ∧ |w - v| ≤ 1/6000 := by
  have hd : pytrunc v = ⌈v⌉ := pytrunc_of_nonpos hhi
  have hdle : ⌈v⌉ ≤ 0 := Int.ceil_le.mpr (by exact_mod_cast hhi)
  have hdgt : (-180 : ℤ) < ⌈v⌉ := by
    rw [Int.lt_ceil]
    push_cast
    linarith
  set dA : ℕ := (⌈v⌉).natAbs with hdAdef
  have hcast : ((dA : ℕ) : ℤ) = -⌈v⌉ := Int.ofNat_natAbs_of_nonpos hdle
  have hceilz : ⌈v⌉ = -((dA : ℕ) : ℤ) := by omega
  have hdAlt : dA < 1000 := by omega
  have hceilq : ((⌈v⌉ : ℤ) : ℚ) = -((dA : ℕ) : ℚ) := by exact_mod_cast hceilz
  have hvle : v ≤ ((⌈v⌉ : ℤ) : ℚ) := Int.le_ceil v
  have habs : |v - ((⌈v⌉ : ℤ) : ℚ)| = ((⌈v⌉ : ℤ) : ℚ) - v := by
    rw [abs_sub_comm]
    exact abs_of_nonneg (by linarith)
  have hclt : ((⌈v⌉ : ℤ) : ℚ) < v + 1 := Int.ceil_lt_add_one v
  have hx0 : 0 ≤ |v - ((⌈v⌉ : ℤ) : ℚ)| * 60 := by positivity
  have hx1 : |v - ((⌈v⌉ : ℤ) : ℚ)| * 60 < 60 := by
    rw [habs]
    nlinarith
  obtain ⟨mN, hN, hmN, hhN, hm_eq, hhm_eq, hacc⟩ :=
    minutes_decomp (|v - ((⌈v⌉ : ℤ) : ℚ)| * 60) hx0 hx1
  have hsuffix : (if 0 < ⌈v⌉ then "E" else "W") = "W" := if_neg (by omega)
  have hstrip : stripChar '-' (toString ⌈v⌉) = Nat.repr dA := by
    rw [hceilz]
    exact (strip_toString_int dA (by omega)).2
  have hstr : deg_to_dms v true =
      zfill 3 (Nat.repr dA) ++ zfill 2 (Nat.repr mN) ++ "." ++
        zfill 2 (Nat.repr hN) ++ "W" := by
    rw [deg_to_dms_true_def, hd, hm_eq, hhm_eq, hstrip, hsuffix,
      toString_int_ofNat, toString_int_ofNat]
  refine ⟨-((dA : ℚ) + ((mN : ℚ) + (hN : ℚ)/100)/60), ?_, ?_⟩
  · show decodeDMSList true (deg_to_dms v true).data = _
    rw [hstr, dms_data_shape _ _ _ _ 'W' rfl,
      decodeDMSList_lon _ _ _ dA mN hN 'W'
        (zfill3_repr_parse dA hdAlt).1 (zfill2_repr_parse mN hmN).1
        (zfill2_repr_parse hN hhN).1
        (zfill3_repr_parse dA hdAlt).2 (zfill2_repr_parse mN hmN).2
        (zfill2_repr_parse hN hhN).2]
    rw [if_neg (by decide), if_pos rfl]
  · have hx60 : (|v - ((⌈v⌉ : ℤ) : ℚ)| * 60) / 60 = ((⌈v⌉ : ℤ) : ℚ) - v := by
      rw [habs]
      field_simp
    have key : -((dA : ℚ) + ((mN : ℚ) + (hN : ℚ)/100)/60) - v =
        (|v - ((⌈v⌉ : ℤ) : ℚ)| * 60) / 60 - ((mN : ℚ) + (hN : ℚ)/100)/60 := by
      rw [hx60, hceilq]
      ring
    rw [key, abs_sub_comm]
    exact le_trans hacc (by norm_num)

/-- Round trip for longitudes of at least one degree. -/
theorem encode_lon_pos (v : ℚ) (hlo : 1 ≤ v) (hhi : v ≤ 179999/1000) :
    ∃ w : ℚ, decodeDMS true (deg_to_dms v true) = some w ∧ |w - v| ≤ 1/6000 := by
  have h0 : (0 : ℚ) ≤ v := by linarith
  have hd : pytrunc v = ⌊v⌋ := pytrunc_of_nonneg h0
  have hd1 : 1 ≤ ⌊v⌋ := Int.le_floor.mpr (by exact_mod_cast hlo)
  have hd180 : ⌊v⌋ < 180 := Int.floor_lt.mpr (by push_cast; linarith)
  set dA : ℕ := (⌊v⌋).toNat with hdAdef
  have hcast : ((dA : ℕ) : ℤ) = ⌊v⌋ := Int.toNat_of_nonneg (by omega)
  have hdAlt : dA < 1000 := by omega
  have hfq : ((⌊v⌋ : ℤ) : ℚ) = ((dA : ℕ) : ℚ) := by exact_mod_cast hcast.symm
  have hfle : ((⌊v⌋ : ℤ) : ℚ) ≤ v := Int.floor_le v
  have hflt : v < ((⌊v⌋ : ℤ) : ℚ) + 1 := Int.lt_floor_add_one v
  have habs : |v - ((⌊v⌋ : ℤ) : ℚ)| = v - ((⌊v⌋ : ℤ) : ℚ) := abs_of_nonneg (by linarith)
  have hx0 : 0 ≤ |v - ((⌊v⌋ : ℤ) : ℚ)| * 60 := by positivity
  have hx1 : |v - ((⌊v⌋ : ℤ) : ℚ)| * 60 < 60 := by
    rw [habs]
    nlinarith
  obtain ⟨mN, hN, hmN, hhN, hm_eq, hhm_eq, hacc⟩ :=
    minutes_decomp (|v - ((⌊v⌋ : ℤ) : ℚ)| * 60) hx0 hx1
  have hsuffix : (if 0 < ⌊v⌋ then "E" else "W") = "E" := if_pos (by omega)
  have hstrip : stripChar '-' (toString ⌊v⌋) = Nat.repr dA := by
    rw [← hcast]
    exact (strip_toString_int dA (by omega)).1
  have hstr : deg_to_dms v true =
      zfill 3 (Nat.repr dA) ++ zfill 2 (Nat.repr mN) ++ "." ++
        zfill 2 (Nat.repr hN) ++ "E" := by
    rw [deg_to_dms_true_def, hd, hm_eq, hhm_eq, hstrip, hsuffix,
      toString_int_ofNat, toString_int_ofNat]
  refine ⟨(dA : ℚ) + ((mN : ℚ) + (hN : ℚ)/100)/60, ?_, ?_⟩
  · show decodeDMSList true (deg_to_dms v true).data = _
    rw [hstr, dms_data_shape _ _ _ _ 'E' rfl,
      decodeDMSList_lon _ _ _ dA mN hN 'E'
        (zfill3_repr_parse dA hdAlt).1 (zfill2_repr_parse mN hmN).1
        (zfill2_repr_parse hN hhN).1
        (zfill3_repr_parse dA hdAlt).2 (zfill2_repr_parse mN hmN).2
        (zfill2_repr_parse hN hhN).2]
    rw [if_pos rfl]
  · have hx60 : (|v - ((⌊v⌋ : ℤ) : ℚ)| * 60) / 60 = v - ((⌊v⌋ : ℤ) : ℚ) := by
      rw [habs]
      field_simp
    have key : ((dA : ℚ) + ((mN : ℚ) + (hN : ℚ)/100)/60) - v =
        ((mN : ℚ) + (hN : ℚ)/100)/60 - (|v - ((⌊v⌋ : ℤ) : ℚ)| * 60) / 60 := by
      rw [hx60, ← hfq]
      ring
    rw [key]
    exact le_trans hacc (by norm_num)

/-! ## Claim theorems -/

/-- Claim C1, counterexample: the encoder maps latitude 0 to the negative
hemisphere suffix `S`, not to `N` as claimed, and even the strictly
positive latitude 0.5 is rendered with suffix `S`. -/
theorem c1_zero_suffix_counterexample :
    deg_to_dms 0 false = "0000.00S" ∧ deg_to_dms 0 false ≠ "0000.00N" ∧
    deg_to_dms (1/2) false = "0030.00S" := by
  refine ⟨by decide, by decide, by decide⟩

/-- Claim C1 (amended): the hemisphere suffix is chosen by the sign of the
truncated integer degree part `int(v)`, not by the sign of `v` itself:
`N`/`E` when `int(v) > 0` and `S`/`W` otherwise, so every value in
`(-1, 1)` — including exactly 0 and positive values below one degree —
receives the negative suffix, and encoding latitude 0.0 yields
`"0000.00S"`. -/
theorem c1_suffix_from_truncated_degrees (v : ℚ) :
    (deg_to_dms v false).data.getLast? = some (if 0 < pytrunc v then 'N' else 'S') ∧
    (deg_to_dms v true).data.getLast? = some (if 0 < pytrunc v then 'E' else 'W') := by
  constructor
  · rw [deg_to_dms_false_def]
    by_cases h : 0 < pytrunc v
    · simp only [if_pos h]
      exact data_getLast_append _ _ _ rfl
    · simp only [if_neg h]
      exact data_getLast_append _ _ _ rfl
  · rw [deg_to_dms_true_def]
    by_cases h : 0 < pytrunc v
    · simp only [if_pos h]
      exact data_getLast_append _ _ _ rfl
    · simp only [if_neg h]
      exact data_getLast_append _ _ _ rfl

/-- Claim C1 witness: instantiating the amended statement at latitude 0.5
gives suffix `S`. -/
theorem c1_suffix_witness :
    (deg_to_dms (1/2) false).data.getLast? =
      some (if 0 < pytrunc (1/2 : ℚ) then 'N' else 'S') :=
  (c1_suffix_from_truncated_degrees (1/2)).1

/-- Claim C2, counterexample: latitude 0.5 encodes to `"0030.00S"`, which
decodes to `-0.5`, an error of a full degree — far beyond the claimed
1/6000-degree bound.  The hemisphere suffix of the encoder flips the sign
for positive values below one degree. -/
theorem c2_roundtrip_counterexample :
    deg_to_dms (1/2) false = "0030.00S" ∧
    decodeDMS false "0030.00S" = some (-(1/2)) ∧
    ¬(|(-(1/2) : ℚ) - 1/2| ≤ 1/6000) := by
  refine ⟨by decide, by decide, by norm_num⟩

/-- Claim C2 (amended): for every decimal latitude in
`[-89.999, 89.999]` outside the open interval `(0, 1)` — where the
encoder's hemisphere bug flips the sign — decoding the encoder's output
(sign from the hemisphere letter, value as degrees + minutes/60) recovers
the value to within 1/6000 degree, and analogously for longitudes in
`[-179.999, 179.999]` outside `(0, 1)`. -/
theorem c2_roundtrip_within_resolution (v : ℚ) :
    (-(89999/1000) ≤ v → v ≤ 89999/1000 → (v ≤ 0 ∨ 1 ≤ v) →
      ∃ w : ℚ, decodeDMS false (deg_to_dms v false) = some w ∧ |w - v| ≤ 1/6000) ∧
    (-(179999/1000) ≤ v → v ≤ 179999/1000 → (v ≤ 0 ∨ 1 ≤ v) →
      ∃ w : ℚ, decodeDMS true (deg_to_dms v true) = some w ∧ |w - v| ≤ 1/6000) := by
  constructor
  · intro h1 h2 h3
    rcases h3 with h3 | h3
    · exact encode_lat_nonpos v h1 h3
    · exact encode_lat_pos v h3 h2
  · intro h1 h2 h3
    rcases h3 with h3 | h3
    · exact encode_lon_nonpos v h1 h3
    · exact encode_lon_pos v h3 h2

/-- Claim C2 witness: the round trip at latitude 51.5 recovers the value
within 1/6000 degree. -/
theorem c2_roundtrip_witness :
    ∃ w : ℚ, decodeDMS false (deg_to_dms (103/2) false) = some w ∧
      |w - 103/2| ≤ 1/6000 :=
  (c2_roundtrip_within_resolution (103/2)).1 (by norm_num) (by norm_num)
    (Or.inr (by norm_num))

/-- Claim C4: the payload `{"_type":"location","lat":51.5,"lon":-0.12}`
with callsign `M0TEST`, ssid `7`, table `/`, symbol `>` produces exactly
the packet `"M0TEST-7>APRS,TCPIP*:=5130.00N/00007.20W> mqtt-aprs\n"`. -/
theorem c4_concrete_packet :
    process_message
      { aprs_callsign := "M0TEST", aprs_ssid := "7", aprs_tabl := "/",
        aprs_symb := ">", aprs_in_topic_prefix := "owntracks/aprs" }
      (some (Json.obj [("_type", Json.str "location"),
        ("lat", Json.num (103/2)), ("lon", Json.num (-12/100))])) =
      some "M0TEST-7>APRS,TCPIP*:=5130.00N/00007.20W> mqtt-aprs\n" := by
  decide

/-- Claim C9: whenever the rounded minutes value reaches exactly 60.00,
the encoder renders the minutes field as `"60.00"` and leaves the degree
digits untouched — no carry into the degrees field is performed, so the
output does not guarantee minutes strictly below 60. -/
theorem c9_minutes_sixty_no_carry (v : ℚ)
    (h : round2 (|v - (pytrunc v : ℚ)| * 60) = 60) :
    deg_to_dms v false =
      zfill 2 (stripChar '-' (toString (pytrunc v))) ++ "60.00" ++
        (if 0 < pytrunc v then "N" else "S") ∧
    deg_to_dms v true =
      zfill 3 (stripChar '-' (toString (pytrunc v))) ++ "60.00" ++
        (if 0 < pytrunc v then "E" else "W") := by
  have hpy60 : pytrunc (60 : ℚ) = (60 : ℤ) := by
    rw [show (60 : ℚ) = ((60 : ℤ) : ℚ) by norm_num, pytrunc_intCast]
  have hpyhm : pytrunc (((60 : ℚ) - ((60 : ℤ) : ℚ)) * 100) = (0 : ℤ) := by decide
  have e1 : zfill 2 (toString (60 : ℤ)) = "60" := by decide
  have e2 : zfill 2 (toString (0 : ℤ)) = "00" := by decide
  constructor
  · rw [deg_to_dms_false_def, h, hpy60, hpyhm, e1, e2]
    refine String.ext ?_
    simp [String.data_append,
      show ("60" : String).data = ['6', '0'] from rfl,
      show ("." : String).data = ['.'] from rfl,
      show ("00" : String).data = ['0', '0'] from rfl,
      show ("60.00" : String).data = ['6', '0', '.', '0', '0'] from rfl]
  · rw [deg_to_dms_true_def, h, hpy60, hpyhm, e1, e2]
    refine String.ext ?_
    simp [String.data_append,
      show ("60" : String).data = ['6', '0'] from rfl,
      show ("." : String).data = ['.'] from rfl,
      show ("00" : String).data = ['0', '0'] from rfl,
      show ("60.00" : String).data = ['6', '0', '.', '0', '0'] from rfl]

/-- Claim C9 witness: latitude 51.999999 rounds to 60.00 minutes and is
rendered `"5160.00N"`, with the degree field still reading 51. -/
theorem c9_witness :
    round2 (|(51999999/1000000 : ℚ) - (pytrunc (51999999/1000000 : ℚ) : ℚ)| * 60) = 60 ∧
    deg_to_dms (51999999/1000000 : ℚ) false = "5160.00N" := by
  refine ⟨by decide, ?_⟩
  rw [(c9_minutes_sixty_no_carry (51999999/1000000 : ℚ) (by decide)).1]
  decide

/-- A failing optional-field conversion is exactly a present field whose
`int()` raises. -/
theorem pyIntOpt_eq_none (x : Option PyVal) :
    pyIntOpt x = none ↔ ∃ v, x = some v ∧ pyInt v = none := by
  cases x with
  | none => simp [pyIntOpt]
  | some v => cases h : pyInt v <;> simp [pyIntOpt, h]

/-- The converted record copies the coordinate fields verbatim. -/
theorem aprs_to_owntracks_coords (now : ℚ) (p : AprsPacket) (ot : OwntracksPayload)
    (h : aprs_to_owntracks now p = some ot) :
    ot.lat = p.latitude ∧ ot.lon = p.longitude := by
  unfold aprs_to_owntracks at h
  split at h
  · exact Option.noConfusion h
  split at h
  · exact Option.noConfusion h
  split at h
  · exact Option.noConfusion h
  split at h
  · exact Option.noConfusion h
  injection h with h2
  rw [← h2]
  exact ⟨rfl, rfl⟩

/-- Claim C3, counterexample: a record with latitude 200 — outside
[-90, 90] — is forwarded on both paths rather than rejected: the APRS
handler publishes it to MQTT unchanged, and the MQTT handler encodes and
sends it as an APRS packet. -/
theorem c3_out_of_range_counterexample :
    handle_packet
      { aprs_callsign := "N0CALL", aprs_ssid := "0", aprs_tabl := "/",
        aprs_symb := "[", aprs_in_topic_prefix := "owntracks/aprs" } 0
      { sender := some "AB", latitude := some (PyVal.num 200),
        longitude := some (PyVal.num 0), timestamp := some (PyVal.num 0),
        altitude := none, speed := none, course := none } =
      some ("owntracks/aprs/AB",
        { lat := some (PyVal.num 200), lon := some (PyVal.num 0), tst := 0,
          tid := "AB", alt := none, vel := none, cog := none }) ∧
    ¬((200 : ℚ) ≤ 90) ∧
    (process_message
      { aprs_callsign := "N0CALL", aprs_ssid := "0", aprs_tabl := "/",
        aprs_symb := "[", aprs_in_topic_prefix := "owntracks/aprs" }
      (some (Json.obj [("_type", Json.str "location"), ("lat", Json.num 200),
        ("lon", Json.num 0)]))).isSome = true := by
  refine ⟨by decide, by norm_num, by decide⟩

/-- Claim C3 (amended): the translation boundary performs no coordinate
range validation.  The APRS handler forwards every packet that has both
coordinate fields present and converts, copying latitude and longitude
through unchanged whatever their values; the MQTT handler encodes and
sends every location-typed object whose `lat`/`lon` are numbers,
whatever their range. -/
theorem c3_no_range_validation :
    (∀ (cfg : GatewayConfig) (now : ℚ) (p : AprsPacket)
        (pr : String × OwntracksPayload),
      handle_packet cfg now p = some pr →
        pr.2.lat = p.latitude ∧ pr.2.lon = p.longitude) ∧
    (∀ (cfg : GatewayConfig) (kvs : List (String × Json)) (q1 q2 : ℚ),
      jsonLookup kvs "_type" = some (Json.str "location") →
      jsonLookup kvs "lat" = some (Json.num q1) →
      jsonLookup kvs "lon" = some (Json.num q2) →
      (process_message cfg (some (Json.obj kvs))).isSome = true) := by
  constructor
  · intro cfg now p pr h
    unfold handle_packet at h
    split at h
    · split at h
      · rename_i ot hot
        injection h with h2
        rw [← h2]
        exact aprs_to_owntracks_coords now p ot hot
      · exact Option.noConfusion h
    · exact Option.noConfusion h
  · intro cfg kvs q1 q2 ht hlat hlon
    have h1 : isLocationType kvs = true := by
      unfold isLocationType
      rw [ht]
      decide
    have h2 : floatField kvs "lat" = some q1 := by
      unfold floatField
      rw [hlat]
      rfl
    have h3 : floatField kvs "lon" = some q2 := by
      unfold floatField
      rw [hlon]
      rfl
    rw [process_message_obj, h1, h2, h3]
    simp

/-- Claim C3 witness: the amended statement applied to a concrete packet
with latitude 200 on each path. -/
theorem c3_witness :
    (some (PyVal.num 200) = some (PyVal.num 200) ∧
      some (PyVal.num 0) = some (PyVal.num 0)) ∧
    (process_message
      { aprs_callsign := "N0CALL", aprs_ssid := "0", aprs_tabl := "/",
        aprs_symb := "[", aprs_in_topic_prefix := "owntracks/aprs" }
      (some (Json.obj [("_type", Json.str "location"), ("lat", Json.num 200),
        ("lon", Json.num 0)]))).isSome = true :=
  ⟨c3_no_range_validation.1
      { aprs_callsign := "N0CALL", aprs_ssid := "0", aprs_tabl := "/",
        aprs_symb := "[", aprs_in_topic_prefix := "owntracks/aprs" } 0
      { sender := some "AB", latitude := some (PyVal.num 200),
        longitude := some (PyVal.num 0), timestamp := some (PyVal.num 0),
        altitude := none, speed := none, course := none }
      ("owntracks/aprs/AB",
        { lat := some (PyVal.num 200), lon := some (PyVal.num 0), tst := 0,
          tid := "AB", alt := none, vel := none, cog := none })
      (by decide),
   c3_no_range_validation.2
      { aprs_callsign := "N0CALL", aprs_ssid := "0", aprs_tabl := "/",
        aprs_symb := "[", aprs_in_topic_prefix := "owntracks/aprs" }
      [("_type", Json.str "location"), ("lat", Json.num 200),
        ("lon", Json.num 0)] 200 0 rfl rfl rfl⟩

/-- Claim C5, counterexample: the conversion fails on a record that has
both coordinates present (its altitude is a non-numeric string, so
`int()` raises), and succeeds on a record with both coordinates absent
(returning a record with null coordinates) — both directions of the
claim are violated. -/
theorem c5_conversion_counterexample :
    aprs_to_owntracks 0
      { sender := some "AB", latitude := some (PyVal.num 1),
        longitude := some (PyVal.num 2), timestamp := some (PyVal.num 0),
        altitude := some (PyVal.str "high"), speed := none, course := none } =
      none ∧
    aprs_to_owntracks 0
      { sender := some "N0CALL-9", latitude := none, longitude := none,
        timestamp := none, altitude := none, speed := none, course := none } =
      some { lat := none, lon := none, tst := 0, tid := "N0",
             alt := none, vel := none, cog := none } := by
  refine ⟨by decide, by decide⟩

/-- Claim C5 (amended): the APRS-to-Owntracks conversion fails (returns
no record) exactly when `int()` raises on the timestamp source (the
packet's timestamp, or the current time when absent) or on a present
altitude, speed, or course field.  Presence or absence of latitude and
longitude plays no role: they are copied through verbatim, possibly as
nulls. -/
theorem c5_failure_characterization (now : ℚ) (p : AprsPacket) :
    aprs_to_owntracks now p = none ↔
      pyInt (p.timestamp.getD (PyVal.num now)) = none ∨
      (∃ v, p.altitude = some v ∧ pyInt v = none) ∨
      (∃ v, p.speed = some v ∧ pyInt v = none) ∨
      (∃ v, p.course = some v ∧ pyInt v = none) := by
  rw [← pyIntOpt_eq_none, ← pyIntOpt_eq_none, ← pyIntOpt_eq_none]
  unfold aprs_to_owntracks
  cases ht : pyInt (p.timestamp.getD (PyVal.num now)) <;>
    cases ha : pyIntOpt p.altitude <;>
    cases hs2 : pyIntOpt p.speed <;>
    cases hc2 : pyIntOpt p.course <;>
    simp [ht, ha, hs2, hc2]

/-- Claim C6: an inbound MQTT payload that is unparseable JSON, or parses
to an object whose `_type` differs from `"location"`, never reaches the
APRS send callback and raises nothing: the handler returns the dropped
outcome. -/
theorem c6_non_location_dropped (cfg : GatewayConfig) (payload : Option Json)
    (h : payload = none ∨ ∃ kvs, payload = some (Json.obj kvs) ∧
      jsonLookup kvs "_type" ≠ some (Json.str "location")) :
    process_message cfg payload = none := by
  rcases h with rfl | ⟨kvs, rfl, hne⟩
  · rfl
  · have hfalse : isLocationType kvs = false := by
      unfold isLocationType
      cases hl : jsonLookup kvs "_type" with
      | none => rfl
      | some v =>
        cases v with
        | str s =>
          have hs : s ≠ "location" := by
            intro hcontra
            exact hne (by rw [hl, hcontra])
          simp [jsonEqStr, hs]
        | null => rfl
        | bool b => rfl
        | num q => rfl
        | arr xs => rfl
        | obj kvs2 => rfl
    rw [process_message_obj, hfalse]
    rfl

/-- Claim C6 witness: a `_type:"waypoint"` payload is dropped. -/
theorem c6_witness :
    process_message
      { aprs_callsign := "N0CALL", aprs_ssid := "0", aprs_tabl := "/",
        aprs_symb := "[", aprs_in_topic_prefix := "owntracks/aprs" }
      (some (Json.obj [("_type", Json.str "waypoint")])) = none :=
  c6_non_location_dropped _ _
    (Or.inr ⟨[("_type", Json.str "waypoint")], rfl, by
      intro hcontra
      have h1 : some (Json.str "waypoint") = some (Json.str "location") := hcontra
      injection h1 with h2
      injection h2 with h3
      exact absurd h3 (by decide)⟩)

/-- Claim C7: with the APRS listener disabled, every call to
`send_packet` first attempts a fresh connect-and-login, attempts the
transmission exactly when the connect succeeded, always ends by
attempting to close the temporary connection — whatever the outcome of
connect or transmit — and never lets an exception reach its caller. -/
theorem c7_outbound_connection_lifecycle (o : NetOracle) :
    (send_packet false o).2 = false ∧
    (send_packet false o).1.head? = some NetOp.connect ∧
    (send_packet false o).1.getLast? = some NetOp.close ∧
    (NetOp.sendall ∈ (send_packet false o).1 ↔ o.connectOk = true) := by
  obtain ⟨c, s, cl⟩ := o
  cases c <;> cases s <;> cases cl <;> decide

/-- Claim C8: `stop()` publishes the retained `"0"` presence marker on the
presence topic strictly before stopping the receive loop, which in turn
happens strictly before disconnecting. -/
theorem c8_offline_before_disconnect (fqdn : String) :
    ∃ i j k : ℕ, i < j ∧ j < k ∧
      (mqtt_stop fqdn)[i]? = some (MqttOp.publish (presence_topic fqdn) "0" true) ∧
      (mqtt_stop fqdn)[j]? = some MqttOp.loop_stop ∧
      (mqtt_stop fqdn)[k]? = some MqttOp.disconnect :=
  ⟨0, 1, 2, by norm_num, by norm_num, rfl, rfl, rfl⟩

/-- Claim C10: with the listener enabled, a failing transmit leaves the
shared connection untouched — `send_packet` performs exactly the one
`sendall` attempt, never connects or closes, and raises nothing. -/
theorem c10_listener_send_failure_frame (o : NetOracle) (h : o.sendOk = false) :
    send_packet true o = ([NetOp.sendall], false) ∧
    NetOp.connect ∉ (send_packet true o).1 ∧
    NetOp.close ∉ (send_packet true o).1 := by
  refine ⟨rfl, ?_, ?_⟩
  · show NetOp.connect ∉ [NetOp.sendall]
    decide
  · show NetOp.close ∉ [NetOp.sendall]
    decide

/-- Claim C10 witness: the listener-enabled send with a failing transmit
oracle. -/
theorem c10_witness :
    send_packet true ⟨true, false, true⟩ = ([NetOp.sendall], false) ∧
    NetOp.connect ∉ (send_packet true ⟨true, false, true⟩).1 ∧
    NetOp.close ∉ (send_packet true ⟨true, false, true⟩).1 :=
  c10_listener_send_failure_frame ⟨true, false, true⟩ rfl

end MqttAprs
